import Mathlib

/-!
Verification development for the scan-launcher-checker repository.

The embedded code is `src/launcher-checker.ts`:
  * `checkScanInProgress`   (lines 36-72)  — the pre-start active-job gate;
  * `checkScanningStatus`   (lines 110-155) — one status probe for a scanID;
  * `pollUntilScanComplete` (lines 158-212) — the polling loop / state machine;
  * `main`                  (lines 215-252) — the caller that consults the gate.

Network interactions are modelled by enumerating the possible behaviours of
the remote collaborator for a single request (`RemoteBehaviour` for the
status probe, `GateBehaviour` for the gate); the JavaScript `try`/`catch`
blocks are modelled with `Except`: the function that may throw returns
`Except String α`, and the enclosing definition matches on the result the
way `catch` does.
-/

namespace Scan

/-- The three-valued result of one status probe, as classified by the
polling loop (`statusResult.isStillScanning` being `true`, `false` or
`null` at lines 178/196/200 of `launcher-checker.ts`). -/
inductive Observation where
  | running
  | finished
  | indeterminate
  deriving DecidableEq, Repr

/-- Behaviour of the remote collaborator on one `IsStillScanning` query
(`checkScanningStatus`, lines 110-155):
  * `httpError status` — `response.ok` is false, so line 139 throws;
  * `transportFailure msg` — `fetch` itself rejects;
  * `unparsableBody msg` — `response.json()` rejects;
  * `missingDataField` — the parsed body has no `data` member, so the
    unguarded access `data.data.getScannedAppsInfo` on line 146 throws;
  * `absentRecord` — `data.data.getScannedAppsInfo` is `null`, so the
    optional chain yields `undefined` and `?? null` yields `null`;
  * `nullStatusField` — the record exists but `isStillScanning` is `null`;
  * `ok b` — the record exists with boolean `isStillScanning = b`. -/
inductive RemoteBehaviour where
  | httpError (status : Nat)
  | transportFailure (msg : String)
  | unparsableBody (msg : String)
  | missingDataField
  | absentRecord
  | nullStatusField
  | ok (isStillScanning : Bool)
  deriving DecidableEq, Repr

/-- The value `checkScanningStatus` returns (line 110): the
`isStillScanning` field is `Option Bool` with `none` standing for the
JavaScript `null`, and `error` carries the caught error message, if any. -/
structure StatusResult where
  isStillScanning : Option Bool
  error : Option String
  deriving DecidableEq, Repr

/-- The body of the `try` block of `checkScanningStatus`
(lines 125-147): an `Except.error` is a thrown exception, an
`Except.ok v` is the value of the `return` on lines 145-147. -/
def checkScanningStatusTry : RemoteBehaviour → Except String (Option Bool)
  | RemoteBehaviour.httpError status =>
      Except.error ("HTTP error! status: " ++ toString status)
  | RemoteBehaviour.transportFailure msg => Except.error msg
  | RemoteBehaviour.unparsableBody msg => Except.error msg
  | RemoteBehaviour.missingDataField =>
      Except.error "Cannot read properties of undefined"
  | RemoteBehaviour.absentRecord => Except.ok none
  | RemoteBehaviour.nullStatusField => Except.ok none
  | RemoteBehaviour.ok b => Except.ok (some b)

/-- `checkScanningStatus` (lines 110-155): the `catch` block (lines
148-154) turns any thrown error into
`\x7b isStillScanning: null, error: error.message \x7d`. -/
def checkScanningStatus (rb : RemoteBehaviour) : StatusResult :=
  match checkScanningStatusTry rb with
  | Except.ok v => { isStillScanning := v, error := none }
  | Except.error e => { isStillScanning := none, error := some e }

/-- How the polling loop classifies `statusResult.isStillScanning`
(lines 178, 196, 200): `null` is indeterminate, `false` is finished,
anything else (i.e. `true`) is running. -/
def classify : Option Bool → Observation
  | some true => Observation.running
  | some false => Observation.finished
  | none => Observation.indeterminate

/-- Behaviour of the remote collaborator on one `CheckScanInProgress`
query (`checkScanInProgress`, lines 36-72). Unlike the status probe, the
field access on line 63 is fully optional-chained
(`data.data?.checkScanInProgress?.isInProgress`), so a well-formed body
missing any of those members yields `undefined` without throwing:
`missingField` covers all of those cases. -/
inductive GateBehaviour where
  | httpError (status : Nat)
  | transportFailure (msg : String)
  | unparsableBody (msg : String)
  | missingField
  | ok (isInProgress : Bool)
  deriving DecidableEq, Repr

/-- The body of the `try` block of `checkScanInProgress` (lines 45-66).
The returned value is `Option Bool`: `none` is the JavaScript
`undefined` produced by the optional chain on line 63. -/
def checkScanInProgressTry : GateBehaviour → Except String (Option Bool)
  | GateBehaviour.httpError status =>
      Except.error ("HTTP error! status: " ++ toString status)
  | GateBehaviour.transportFailure msg => Except.error msg
  | GateBehaviour.unparsableBody msg => Except.error msg
  | GateBehaviour.missingField => Except.ok none
  | GateBehaviour.ok b => Except.ok (some b)

/-- `checkScanInProgress` (lines 36-72): the `catch` block (lines 67-71)
returns `true`; otherwise the function returns whatever line 66 returns,
which may be `undefined` (`none`). -/
def checkScanInProgress (gb : GateBehaviour) : Option Bool :=
  match checkScanInProgressTry gb with
  | Except.ok v => v
  | Except.error _ => some true

/-- JavaScript truthiness of a `boolean | undefined` value, as tested by
`if (scanInProgress)` on line 220 of `main`. -/
def truthy : Option Bool → Bool
  | some true => true
  | some false => false
  | none => false

/-- Whether `main` (lines 215-252) proceeds past the gate to
`initiateScanning` (line 226): it does iff `scanInProgress` is falsy on
line 220. -/
def mainStartsNewScan (gb : GateBehaviour) : Bool :=
  ! truthy (checkScanInProgress gb)

/-- `maxConsecutiveNullResponses` (line 168):
`Math.ceil(initializationTimeoutMs / intervalMs)`, which for natural
numbers with `intervalMs > 0` is `(initializationTimeoutMs + intervalMs - 1) / intervalMs`. -/
def maxConsecutiveNullResponses (initializationTimeoutMs intervalMs : Nat) : Nat :=
  (initializationTimeoutMs + intervalMs - 1) / intervalMs

/-- The mutable state of the polling loop (lines 166-169): `attempts`,
`consecutiveNullResponses` and `scanStarted`. -/
structure PollState where
  attempts : Nat
  consecutiveNullResponses : Nat
  scanStarted : Bool
  deriving DecidableEq, Repr

/-- The state on entry to the loop (lines 166-169): zero attempts, zero
consecutive null responses, scan not yet observed running. -/
def initState : PollState :=
  { attempts := 0, consecutiveNullResponses := 0, scanStarted := false }

/-- The four terminal statuses of `pollUntilScanComplete`
(the `status` strings on lines 184, 190, 198 and 211). -/
inductive Outcome where
  | completed
  | cancelled
  | initializationTimeout
  | maxAttemptsReached
  deriving DecidableEq, Repr

/-- The record `pollUntilScanComplete` returns for each outcome:
`success` and the `status` string (lines 184, 190, 198, 211). -/
def pollReturn : Outcome → Bool × String
  | Outcome.completed => (true, "completed")
  | Outcome.cancelled => (false, "cancelled")
  | Outcome.initializationTimeout => (false, "initialization_timeout")
  | Outcome.maxAttemptsReached => (false, "max_attempts_reached")

/-- One iteration of the loop body of `pollUntilScanComplete`
(lines 172-208) after the probe's result has been classified:
`Sum.inr` is an early `return` (with the final value of `attempts`),
`Sum.inl` is the state carried into the next iteration.
  * line 172: `attempts++`;
  * lines 178-193: the `null` branch — increment
    `consecutiveNullResponses`; if `scanStarted`, return `cancelled`;
    if the counter has reached `maxConsecutiveNullResponses`, return
    `initialization_timeout`; otherwise keep looping;
  * lines 196-198: the `false` branch — return `completed`;
  * lines 200-205: the `true` branch — set `scanStarted`, reset
    `consecutiveNullResponses` to 0, keep looping. -/
def pollStep (maxConsec : Nat) (st : PollState) (o : Observation) :
    PollState ⊕ (Outcome × Nat) :=
  match o with
  | Observation.indeterminate =>
      if st.scanStarted then
        Sum.inr (Outcome.cancelled, st.attempts + 1)
      else if maxConsec ≤ st.consecutiveNullResponses + 1 then
        Sum.inr (Outcome.initializationTimeout, st.attempts + 1)
      else
        Sum.inl { attempts := st.attempts + 1,
                  consecutiveNullResponses := st.consecutiveNullResponses + 1,
                  scanStarted := st.scanStarted }
  | Observation.finished => Sum.inr (Outcome.completed, st.attempts + 1)
  | Observation.running =>
      Sum.inl { attempts := st.attempts + 1, consecutiveNullResponses := 0,
                scanStarted := true }

/-- The `while (attempts < maxAttempts)` loop (lines 171-209) run over
the list of observations still allowed by the attempt budget: the list
argument holds one entry per remaining permitted iteration, so the empty
list is the natural exit of the loop, which returns
`max_attempts_reached` (line 211) with the current value of `attempts`. -/
def pollList (maxConsec : Nat) : List Observation → PollState → Outcome × Nat
  | [], st => (Outcome.maxAttemptsReached, st.attempts)
  | o :: rest, st =>
      match pollStep maxConsec st o with
      | Sum.inl st' => pollList maxConsec rest st'
      | Sum.inr r => r

/-- Running the loop body over an initial segment of the observations:
`Sum.inl st'` means every observation of the segment was processed
without the loop returning, leaving state `st'`; `Sum.inr r` means the
loop returned early with `r` while inside the segment. -/
def pollSegment (maxConsec : Nat) :
    List Observation → PollState → PollState ⊕ (Outcome × Nat)
  | [], st => Sum.inl st
  | o :: rest, st =>
      match pollStep maxConsec st o with
      | Sum.inl st' => pollSegment maxConsec rest st'
      | Sum.inr r => Sum.inr r

/-- Number of loop iterations executed — equivalently, of status probes
issued (exactly one probe per iteration, line 175) — before `pollList`
returns. -/
def pollListProbes (maxConsec : Nat) : List Observation → PollState → Nat
  | [], _ => 0
  | o :: rest, st =>
      match pollStep maxConsec st o with
      | Sum.inl st' => pollListProbes maxConsec rest st' + 1
      | Sum.inr _ => 1

/-- `pollUntilScanComplete` (lines 158-212) for a session whose `i`-th
status probe (0-based) would be classified as `σ i`: the loop performs at
most `maxAttempts` iterations, so it consumes at most the first
`maxAttempts` observations. Returns the terminal outcome together with
the final value of `attempts`. -/
def pollUntilScanComplete (σ : Nat → Observation)
    (maxAttempts intervalMs initializationTimeoutMs : Nat) : Outcome × Nat :=
  pollList (maxConsecutiveNullResponses initializationTimeoutMs intervalMs)
    ((List.range maxAttempts).map σ) initState

/-- Number of status probes the session issues. -/
def probesIssued (σ : Nat → Observation)
    (maxAttempts intervalMs initializationTimeoutMs : Nat) : Nat :=
  pollListProbes (maxConsecutiveNullResponses initializationTimeoutMs intervalMs)
    ((List.range maxAttempts).map σ) initState

/-- Length of the maximal suffix of `l` consisting only of
`indeterminate` observations: a cons contributes iff it is
`indeterminate` and the whole tail is already all-`indeterminate`. -/
def indetSuffixLen : List Observation → Nat
  | [] => 0
  | o :: rest =>
      if o = Observation.indeterminate ∧ indetSuffixLen rest = rest.length
      then rest.length + 1
      else indetSuffixLen rest

/-- Inversion of a non-terminating loop iteration: the next state has one
more attempt, its `scanStarted` flag is the old one possibly set by a
`running` observation, its counter is reset by `running` and bumped by
`indeterminate`, and an `indeterminate` observation can only continue the
loop when the scan was never seen running and the counter stays below the
threshold. -/
theorem pollStep_inl (mC : Nat) (st : PollState) (o : Observation) (st1 : PollState)
    (h : pollStep mC st o = Sum.inl st1) :
    st1.attempts = st.attempts + 1
    ∧ (st1.scanStarted = true ↔ (st.scanStarted = true ∨ o = Observation.running))
    ∧ st1.consecutiveNullResponses
        = (if o = Observation.running then 0 else st.consecutiveNullResponses + 1)
    ∧ (o = Observation.indeterminate →
        st.scanStarted = false ∧ st.consecutiveNullResponses + 1 < mC) := by
  cases o with
  | running =>
      simp only [pollStep, Sum.inl.injEq] at h
      subst h
      simp
  | finished =>
      simp [pollStep] at h
  | indeterminate =>
      simp only [pollStep] at h
      split at h
      · simp at h
      · split at h
        · simp at h
        · simp only [Sum.inl.injEq] at h
          subst h
          refine ⟨rfl, by simp, by simp, fun _ => ⟨by simp_all, by omega⟩⟩

/-- Inversion of a terminating loop iteration: the reported attempt count
is one more than before, and each early outcome pins down the observation
and the state that produced it. The loop's natural exit is the only way
to produce `maxAttemptsReached`. -/
theorem pollStep_inr (mC : Nat) (st : PollState) (o : Observation) (r : Outcome × Nat)
    (h : pollStep mC st o = Sum.inr r) :
    r.2 = st.attempts + 1
    ∧ (r.1 = Outcome.completed ↔ o = Observation.finished)
    ∧ (r.1 = Outcome.cancelled →
        o = Observation.indeterminate ∧ st.scanStarted = true)
    ∧ (r.1 = Outcome.initializationTimeout →
        o = Observation.indeterminate ∧ st.scanStarted = false
          ∧ mC ≤ st.consecutiveNullResponses + 1)
    ∧ r.1 ≠ Outcome.maxAttemptsReached := by
  cases o with
  | running =>
      simp [pollStep] at h
  | finished =>
      simp only [pollStep, Sum.inr.injEq] at h
      subst h
      simp
  | indeterminate =>
      simp only [pollStep] at h
      split at h
      · simp only [Sum.inr.injEq] at h
        subst h
        simp_all
      · split at h
        · simp only [Sum.inr.injEq] at h
          subst h
          simp_all
        · simp at h

/-- Unfolding equation for `pollList` on a cons cell. -/
theorem pollList_cons (mC : Nat) (o : Observation) (rest : List Observation)
    (st : PollState) :
    pollList mC (o :: rest) st =
      match pollStep mC st o with
      | Sum.inl st' => pollList mC rest st'
      | Sum.inr r => r := rfl

/-- Unfolding equation for `pollSegment` on a cons cell. -/
theorem pollSegment_cons (mC : Nat) (o : Observation) (rest : List Observation)
    (st : PollState) :
    pollSegment mC (o :: rest) st =
      match pollStep mC st o with
      | Sum.inl st' => pollSegment mC rest st'
      | Sum.inr r => Sum.inr r := rfl

/-- Decomposing a run of the loop: running it over `l₁ ++ l₂` is running
it over `l₁` and, if that did not return, continuing over `l₂` from the
state `l₁` left behind. -/
theorem pollList_append (mC : Nat) (l₁ l₂ : List Observation) (st : PollState) :
    pollList mC (l₁ ++ l₂) st =
      match pollSegment mC l₁ st with
      | Sum.inl st' => pollList mC l₂ st'
      | Sum.inr r => r := by
  induction l₁ generalizing st with
  | nil => rfl
  | cons o rest ih =>
      rw [List.cons_append, pollList_cons, pollSegment_cons]
      cases hstep : pollStep mC st o with
      | inl st1 => exact ih st1
      | inr r => rfl

/-- A fully processed segment adds exactly its length to `attempts`. -/
theorem pollSegment_attempts (mC : Nat) (l : List Observation)
    (st st' : PollState) (h : pollSegment mC l st = Sum.inl st') :
    st'.attempts = st.attempts + l.length := by
  induction l generalizing st with
  | nil =>
      simp only [pollSegment, Sum.inl.injEq] at h
      simp [← h]
  | cons o rest ih =>
      rw [pollSegment_cons] at h
      cases hstep : pollStep mC st o with
      | inl st1 =>
          rw [hstep] at h
          have h1 := (pollStep_inl mC st o st1 hstep).1
          have := ih st1 h
          simp only [List.length_cons]
          omega
      | inr r => rw [hstep] at h; simp at h

/-- After a fully processed segment, `scanStarted` holds iff it held
before or the segment contains a `running` observation. -/
theorem pollSegment_scanStarted (mC : Nat) (l : List Observation)
    (st st' : PollState) (h : pollSegment mC l st = Sum.inl st') :
    st'.scanStarted = true ↔
      (st.scanStarted = true ∨ Observation.running ∈ l) := by
  induction l generalizing st with
  | nil =>
      simp only [pollSegment, Sum.inl.injEq] at h
      simp [← h]
  | cons o rest ih =>
      rw [pollSegment_cons] at h
      cases hstep : pollStep mC st o with
      | inl st1 =>
          rw [hstep] at h
          have h2 := (pollStep_inl mC st o st1 hstep).2.1
          rw [ih st1 h, h2, List.mem_cons]
          constructor
          · rintro ((hs | ho) | hm)
            · exact Or.inl hs
            · exact Or.inr (Or.inl ho.symm)
            · exact Or.inr (Or.inr hm)
          · rintro (hs | (ho | hm))
            · exact Or.inl (Or.inl hs)
            · exact Or.inl (Or.inr ho.symm)
            · exact Or.inr hm
      | inr r => rw [hstep] at h; simp at h

/-- The final attempt count never falls below the starting one. -/
theorem pollList_attempts_ge (mC : Nat) (l : List Observation) (st : PollState) :
    st.attempts ≤ (pollList mC l st).2 := by
  induction l generalizing st with
  | nil => exact Nat.le_refl _
  | cons o rest ih =>
      cases hstep : pollStep mC st o with
      | inl st1 =>
          have h1 := (pollStep_inl mC st o st1 hstep).1
          have h2 := ih st1
          simp only [pollList_cons, hstep]
          omega
      | inr r =>
          have h1 := (pollStep_inr mC st o r hstep).1
          simp only [pollList_cons, hstep]
          omega

/-- The final attempt count never exceeds the starting one plus the
number of permitted iterations. -/
theorem pollList_attempts_le (mC : Nat) (l : List Observation) (st : PollState) :
    (pollList mC l st).2 ≤ st.attempts + l.length := by
  induction l generalizing st with
  | nil => exact Nat.le_refl _
  | cons o rest ih =>
      cases hstep : pollStep mC st o with
      | inl st1 =>
          have h1 := (pollStep_inl mC st o st1 hstep).1
          have h2 := ih st1
          simp only [pollList_cons, hstep, List.length_cons]
          omega
      | inr r =>
          have h1 := (pollStep_inr mC st o r hstep).1
          simp only [pollList_cons, hstep, List.length_cons]
          omega

/-- A terminating run that did not exhaust the budget consumed at least
one observation. -/
theorem pollList_early_attempts (mC : Nat) (l : List Observation) (st : PollState)
    (h : (pollList mC l st).1 ≠ Outcome.maxAttemptsReached) :
    st.attempts + 1 ≤ (pollList mC l st).2 := by
  induction l generalizing st with
  | nil => simp [pollList] at h
  | cons o rest ih =>
      cases hstep : pollStep mC st o with
      | inl st1 =>
          simp only [pollList_cons, hstep] at h ⊢
          have h1 := (pollStep_inl mC st o st1 hstep).1
          have h2 := ih st1 h
          omega
      | inr r =>
          simp only [pollList_cons, hstep] at h ⊢
          have h1 := (pollStep_inr mC st o r hstep).1
          omega

/-- Unfolding equation for `indetSuffixLen` on a cons cell. -/
theorem indetSuffixLen_cons (o : Observation) (rest : List Observation) :
    indetSuffixLen (o :: rest) =
      if o = Observation.indeterminate ∧ indetSuffixLen rest = rest.length
      then rest.length + 1
      else indetSuffixLen rest := rfl

/-- The all-indeterminate suffix is no longer than the whole list. -/
theorem indetSuffixLen_le (l : List Observation) : indetSuffixLen l ≤ l.length := by
  induction l with
  | nil => exact Nat.le_refl _
  | cons o rest ih =>
      rw [indetSuffixLen_cons]
      split
      · exact Nat.le_refl _
      · simp only [List.length_cons]
        omega

/-- A list whose last element is not `indeterminate` has an empty
all-indeterminate suffix. -/
theorem indetSuffixLen_of_last_ne (l : List Observation) (o : Observation)
    (hl : l.getLast? = some o) (ho : o ≠ Observation.indeterminate) :
    indetSuffixLen l = 0 := by
  induction l with
  | nil => simp at hl
  | cons x rest ih =>
      cases rest with
      | nil =>
          simp only [List.getLast?_singleton, Option.some.injEq] at hl
          subst hl
          simp [indetSuffixLen, ho]
      | cons y rest' =>
          have hl' : (y :: rest').getLast? = some o := by
            simpa [List.getLast?_cons_cons] using hl
          have h0 := ih hl'
          rw [indetSuffixLen_cons, if_neg]
          · exact h0
          · rintro ⟨-, hfull⟩
            rw [h0] at hfull
            simp at hfull

/-- After a fully processed segment, the consecutive-null counter is the
length of the segment's all-indeterminate suffix — except that a segment
that is entirely indeterminate extends whatever run was already in
progress. -/
theorem pollSegment_consec (mC : Nat) (l : List Observation)
    (st st' : PollState) (h : pollSegment mC l st = Sum.inl st') :
    st'.consecutiveNullResponses =
      if indetSuffixLen l = l.length
      then st.consecutiveNullResponses + l.length
      else indetSuffixLen l := by
  induction l generalizing st with
  | nil =>
      simp only [pollSegment, Sum.inl.injEq] at h
      simp [← h, indetSuffixLen]
  | cons o rest ih =>
      rw [pollSegment_cons] at h
      cases hstep : pollStep mC st o with
      | inr r => rw [hstep] at h; simp at h
      | inl st1 =>
          rw [hstep] at h
          have hfacts := pollStep_inl mC st o st1 hstep
          have hih := ih st1 h
          have hle := indetSuffixLen_le rest
          cases o with
          | finished => simp [pollStep] at hstep
          | running =>
              have hc : st1.consecutiveNullResponses = 0 := by
                simpa using hfacts.2.2.1
              have hcons : indetSuffixLen (Observation.running :: rest)
                  = indetSuffixLen rest := by
                simp [indetSuffixLen_cons]
              rw [hcons]
              simp only [List.length_cons]
              rw [if_neg (by omega)]
              by_cases hfull : indetSuffixLen rest = rest.length
              · rw [if_pos hfull, hc] at hih
                omega
              · rwa [if_neg hfull] at hih
          | indeterminate =>
              have hc : st1.consecutiveNullResponses
                  = st.consecutiveNullResponses + 1 := by
                simpa using hfacts.2.2.1
              by_cases hfull : indetSuffixLen rest = rest.length
              · have hcons : indetSuffixLen (Observation.indeterminate :: rest)
                    = rest.length + 1 := by
                  simp [indetSuffixLen_cons, hfull]
                rw [hcons]
                simp only [List.length_cons, if_true]
                rw [if_pos hfull, hc] at hih
                omega
              · have hcons : indetSuffixLen (Observation.indeterminate :: rest)
                    = indetSuffixLen rest := by
                  simp [indetSuffixLen_cons, hfull]
                rw [hcons]
                simp only [List.length_cons]
                rw [if_neg (by omega)]
                rwa [if_neg hfull] at hih

/-- While the scan has never been observed running, a run of
indeterminate observations short of the threshold is fully processed,
adding its length to both `attempts` and the consecutive-null counter. -/
theorem pollSegment_replicate_indet (mC k : Nat) (st : PollState)
    (hs : st.scanStarted = false)
    (hlt : st.consecutiveNullResponses + k < mC) :
    pollSegment mC (List.replicate k Observation.indeterminate) st
      = Sum.inl { attempts := st.attempts + k,
                  consecutiveNullResponses := st.consecutiveNullResponses + k,
                  scanStarted := false } := by
  induction k generalizing st with
  | zero =>
      cases st with
      | mk a c s =>
          simp only at hs
          subst hs
          rfl
  | succ k ih =>
      have hstep : pollStep mC st Observation.indeterminate
          = Sum.inl { attempts := st.attempts + 1,
                      consecutiveNullResponses := st.consecutiveNullResponses + 1,
                      scanStarted := st.scanStarted } := by
        simp only [pollStep, hs]
        rw [if_neg (by simp), if_neg (by omega)]
      have hrec := ih { attempts := st.attempts + 1,
                        consecutiveNullResponses := st.consecutiveNullResponses + 1,
                        scanStarted := st.scanStarted }
        (by simpa using hs) (by simpa using (by omega :
          st.consecutiveNullResponses + 1 + k < mC))
      have hcons : pollSegment mC
          (List.replicate (k + 1) Observation.indeterminate) st
          = pollSegment mC (List.replicate k Observation.indeterminate)
              { attempts := st.attempts + 1,
                consecutiveNullResponses := st.consecutiveNullResponses + 1,
                scanStarted := st.scanStarted } := by
        rw [List.replicate_succ, pollSegment_cons, hstep]
      rw [hcons, hrec]
      have h1 : st.attempts + 1 + k = st.attempts + (k + 1) := by omega
      have h2 : st.consecutiveNullResponses + 1 + k
          = st.consecutiveNullResponses + (k + 1) := by omega
      rw [h1, h2]

/-- Unfolding equation for `pollListProbes` on a cons cell. -/
theorem pollListProbes_cons (mC : Nat) (o : Observation)
    (rest : List Observation) (st : PollState) :
    pollListProbes mC (o :: rest) st =
      match pollStep mC st o with
      | Sum.inl st' => pollListProbes mC rest st' + 1
      | Sum.inr _ => 1 := rfl

/-- The number of probes issued is exactly the increase of `attempts`:
each iteration issues one probe right after incrementing `attempts`. -/
theorem pollListProbes_attempts (mC : Nat) (l : List Observation)
    (st : PollState) :
    st.attempts + pollListProbes mC l st = (pollList mC l st).2 := by
  induction l generalizing st with
  | nil => simp [pollListProbes, pollList]
  | cons o rest ih =>
      cases hstep : pollStep mC st o with
      | inl st1 =>
          have h1 := (pollStep_inl mC st o st1 hstep).1
          have h2 := ih st1
          have e1 : pollList mC (o :: rest) st = pollList mC rest st1 := by
            rw [pollList_cons, hstep]
          have e2 : pollListProbes mC (o :: rest) st
              = pollListProbes mC rest st1 + 1 := by
            rw [pollListProbes_cons, hstep]
          rw [e1, e2]
          omega
      | inr r =>
          have h1 := (pollStep_inr mC st o r hstep).1
          have e1 : pollList mC (o :: rest) st = r := by
            rw [pollList_cons, hstep]
          have e2 : pollListProbes mC (o :: rest) st = 1 := by
            rw [pollListProbes_cons, hstep]
          rw [e1, e2]
          omega

/-- The loop never looks past the observation on which it returns:
replacing the observation list by any other list of the same length that
agrees on the consumed initial part leaves the result unchanged. -/
theorem pollList_take_eq (mC : Nat) (l l' : List Observation) (st : PollState)
    (hlen : l'.length = l.length)
    (htake : l'.take ((pollList mC l st).2 - st.attempts)
      = l.take ((pollList mC l st).2 - st.attempts)) :
    pollList mC l' st = pollList mC l st := by
  induction l generalizing l' st with
  | nil =>
      rw [List.length_nil, List.length_eq_zero] at hlen
      rw [hlen]
  | cons o rest ih =>
      cases l' with
      | nil => simp at hlen
      | cons o' rest' =>
          have hlen' : rest'.length = rest.length := by
            simpa using hlen
          cases hstep : pollStep mC st o with
          | inr r =>
              have h1 := (pollStep_inr mC st o r hstep).1
              have hn : (pollList mC (o :: rest) st).2 - st.attempts = 1 := by
                simp only [pollList_cons, hstep]
                omega
              rw [hn] at htake
              simp only [List.take_succ_cons, List.take_zero,
                List.cons.injEq, and_true] at htake
              subst htake
              simp [pollList_cons, hstep]
          | inl st1 =>
              have h1 := (pollStep_inl mC st o st1 hstep).1
              have hge := pollList_attempts_ge mC rest st1
              have hn : (pollList mC (o :: rest) st).2
                  = (pollList mC rest st1).2 := by
                simp [pollList_cons, hstep]
              obtain ⟨m, hm⟩ : ∃ m, (pollList mC (o :: rest) st).2 - st.attempts
                  = m + 1 := ⟨(pollList mC (o :: rest) st).2 - st.attempts - 1,
                    by omega⟩
              rw [hm] at htake
              simp only [List.take_succ_cons, List.cons.injEq] at htake
              obtain ⟨ho, htake'⟩ := htake
              subst ho
              have hm' : m = (pollList mC rest st1).2 - st1.attempts := by omega
              rw [hm'] at htake'
              simp only [pollList_cons, hstep]
              exact ih rest' st1 hlen' htake'

/-- Splitting the list of the session's permitted observations at an
index `j` inside the budget: the part before `j`, the observation at
`j`, and some tail. -/
theorem range_map_split (σ : Nat → Observation) (mA j : Nat) (hj : j < mA) :
    ∃ rest, (List.range mA).map σ
      = (List.range j).map σ ++ σ j :: rest := by
  refine ⟨((List.range mA).map σ).drop (j + 1), ?_⟩
  have hlen : j < ((List.range mA).map σ).length := by simpa using hj
  conv_lhs => rw [← List.take_append_drop j ((List.range mA).map σ)]
  congr 1
  · rw [← List.map_take, List.take_range, Nat.min_eq_left (Nat.le_of_lt hj)]
  · rw [List.drop_eq_getElem_cons hlen]
    congr 1
    rw [List.getElem_map, List.getElem_range]

/-- If the first `k` observations of a session are all indeterminate,
the corresponding list is a `replicate`. -/
theorem range_map_replicate (σ : Nat → Observation) (k : Nat)
    (h : ∀ i, i < k → σ i = Observation.indeterminate) :
    (List.range k).map σ = List.replicate k Observation.indeterminate := by
  rw [List.eq_replicate_iff]
  refine ⟨by simp, ?_⟩
  intro b hb
  simp only [List.mem_map, List.mem_range] at hb
  obtain ⟨i, hi, hσ⟩ := hb
  rw [← hσ]
  exact h i hi

/-- A `cancelled` result needs `scanStarted` on entry, or at least two
more attempts than the entry state had: the flag is set only by a
strictly earlier `running` observation. -/
theorem pollList_cancelled (mC : Nat) (l : List Observation) (st : PollState)
    (n : Nat) (h : pollList mC l st = (Outcome.cancelled, n)) :
    st.scanStarted = true ∨ st.attempts + 2 ≤ n := by
  induction l generalizing st with
  | nil => simp [pollList] at h
  | cons o rest ih =>
      cases hstep : pollStep mC st o with
      | inr r =>
          have e : pollList mC (o :: rest) st = r := by
            rw [pollList_cons, hstep]
          rw [e] at h
          subst h
          have hfacts := pollStep_inr mC st o _ hstep
          exact Or.inl (hfacts.2.2.1 rfl).2
      | inl st1 =>
          have e : pollList mC (o :: rest) st = pollList mC rest st1 := by
            rw [pollList_cons, hstep]
          rw [e] at h
          have hfacts := pollStep_inl mC st o st1 hstep
          have h1 := hfacts.1
          rcases ih st1 h with hs | hb
          · rcases hfacts.2.1.mp hs with hst | hrun
            · exact Or.inl hst
            · have hne : (pollList mC rest st1).1 ≠ Outcome.maxAttemptsReached := by
                rw [h]
                simp
              have hea := pollList_early_attempts mC rest st1 hne
              have hn : (pollList mC rest st1).2 = n := by rw [h]
              right
              omega
          · right
            omega

/-- Scenario A of the spec (§8): `maxAttempts = 5`, interval 1, timeout 3
(so `maxConsecutiveNullResponses = 3`); three indeterminate observations
give `initialization_timeout` after 3 attempts. -/
theorem scenarioA :
    pollUntilScanComplete (fun _ => Observation.indeterminate) 5 1 3
      = (Outcome.initializationTimeout, 3) := by decide

/-- Scenario B of the spec (§8): `[running, finished]` gives `completed`
after 2 attempts. -/
theorem scenarioB :
    pollUntilScanComplete
      (fun i => if i = 0 then Observation.running else Observation.finished) 5 1 3
      = (Outcome.completed, 2) := by decide

/-- Scenario C of the spec (§8): `[running, indeterminate]` gives
`cancelled` after 2 attempts. -/
theorem scenarioC :
    pollUntilScanComplete
      (fun i => if i = 0 then Observation.running else Observation.indeterminate) 5 1 3
      = (Outcome.cancelled, 2) := by decide

/-- Scenario D of the spec (§8): `maxAttempts = 2` and a scan that keeps
running gives `max_attempts_reached` after 2 attempts. -/
theorem scenarioD :
    pollUntilScanComplete (fun _ => Observation.running) 2 1 3
      = (Outcome.maxAttemptsReached, 2) := by decide

/-- C1: in every session, if a `running` observation occurred at any
earlier point, the next `indeterminate` observation makes the polling
state machine terminate immediately with outcome `cancelled`, whatever
the current consecutive-indeterminate counter (quantified freely inside
`st'`) and however many attempts remain in the budget (`maxAttempts` is
arbitrary beyond `j`). -/
theorem c1_running_then_indeterminate_cancels
    (σ : Nat → Observation)
    (maxAttempts intervalMs initializationTimeoutMs j : Nat) (st' : PollState)
    (hj : j < maxAttempts)
    (hlive : pollSegment (maxConsecutiveNullResponses initializationTimeoutMs intervalMs)
      ((List.range j).map σ) initState = Sum.inl st')
    (hobs : σ j = Observation.indeterminate)
    (hrun : ∃ i, i < j ∧ σ i = Observation.running) :
    pollUntilScanComplete σ maxAttempts intervalMs initializationTimeoutMs
      = (Outcome.cancelled, j + 1) := by
  set mC := maxConsecutiveNullResponses initializationTimeoutMs intervalMs with hmC
  obtain ⟨rest, hsplit⟩ := range_map_split σ maxAttempts j hj
  have hstarted : st'.scanStarted = true := by
    rw [pollSegment_scanStarted mC _ _ _ hlive]
    right
    obtain ⟨i, hi, hσ⟩ := hrun
    simp only [List.mem_map, List.mem_range]
    exact ⟨i, hi, hσ⟩
  have hatt : st'.attempts = j := by
    have := pollSegment_attempts mC _ _ _ hlive
    simpa [initState] using this
  have hstep : pollStep mC st' (σ j) = Sum.inr (Outcome.cancelled, j + 1) := by
    rw [hobs]
    simp [pollStep, hstarted, hatt]
  unfold pollUntilScanComplete
  rw [← hmC, hsplit, pollList_append, hlive]
  show pollList mC (σ j :: rest) st' = (Outcome.cancelled, j + 1)
  rw [pollList_cons, hstep]

/-- C1 witness: Scenario C — with `maxAttempts = 5`, interval 1 and
timeout 3, the sequence running-then-indeterminate is cancelled after 2
attempts. -/
theorem c1_witness :
    (1 : Nat) < 5
    ∧ (fun i => if i = 0 then Observation.running else Observation.indeterminate) 1
        = Observation.indeterminate
    ∧ pollUntilScanComplete
        (fun i => if i = 0 then Observation.running else Observation.indeterminate)
        5 1 3 = (Outcome.cancelled, 2) :=
  ⟨by decide, by decide,
    c1_running_then_indeterminate_cancels
      (fun i => if i = 0 then Observation.running else Observation.indeterminate)
      5 1 3 1
      { attempts := 1, consecutiveNullResponses := 0, scanStarted := true }
      (by decide) (by decide) (by decide) ⟨0, by decide, by decide⟩⟩

/-- C2: in a session with no `running` observation ever (equivalently,
with indeterminate observations throughout, since a `finished` one is
also excluded), the machine terminates with `initializationTimeout`
exactly at the first observation at which the consecutive-indeterminate
counter reaches `maxConsecutiveNullResponses = ceil(timeout / interval)`
— provided that threshold is within the attempt budget — and at no
strictly earlier point is any outcome produced. -/
theorem c2_initialization_timeout_exact
    (σ : Nat → Observation) (maxAttempts intervalMs initializationTimeoutMs : Nat)
    (hi : 0 < intervalMs) (ht : 0 < initializationTimeoutMs)
    (hle : maxConsecutiveNullResponses initializationTimeoutMs intervalMs ≤ maxAttempts)
    (hσ : ∀ i, i < maxConsecutiveNullResponses initializationTimeoutMs intervalMs →
      σ i = Observation.indeterminate) :
    pollUntilScanComplete σ maxAttempts intervalMs initializationTimeoutMs
      = (Outcome.initializationTimeout,
          maxConsecutiveNullResponses initializationTimeoutMs intervalMs)
    ∧ ∀ k, k < maxConsecutiveNullResponses initializationTimeoutMs intervalMs →
        pollSegment (maxConsecutiveNullResponses initializationTimeoutMs intervalMs)
          ((List.range k).map σ) initState
          = Sum.inl { attempts := k, consecutiveNullResponses := k,
                      scanStarted := false } := by
  set mC := maxConsecutiveNullResponses initializationTimeoutMs intervalMs with hmC
  have hmC1 : 1 ≤ mC := by
    rw [hmC]
    unfold maxConsecutiveNullResponses
    rw [Nat.one_le_div_iff hi]
    omega
  constructor
  · have hj : mC - 1 < maxAttempts := by omega
    obtain ⟨rest, hsplit⟩ := range_map_split σ maxAttempts (mC - 1) hj
    have hfirst : (List.range (mC - 1)).map σ
        = List.replicate (mC - 1) Observation.indeterminate :=
      range_map_replicate σ (mC - 1) (fun i hi' => hσ i (by omega))
    have hseg := pollSegment_replicate_indet mC (mC - 1) initState rfl
      (by simp only [initState]; omega)
    simp only [initState] at hseg
    have hobs : σ (mC - 1) = Observation.indeterminate := hσ _ (by omega)
    have hstep : pollStep mC
        { attempts := 0 + (mC - 1), consecutiveNullResponses := 0 + (mC - 1),
          scanStarted := false } Observation.indeterminate
        = Sum.inr (Outcome.initializationTimeout, mC) := by
      simp only [pollStep]
      rw [if_neg (by simp), if_pos (by omega)]
      have harith : 0 + (mC - 1) + 1 = mC := by omega
      rw [harith]
    unfold pollUntilScanComplete
    rw [← hmC, hsplit, hfirst, pollList_append]
    simp only [initState]
    rw [hseg]
    show pollList mC (σ (mC - 1) :: rest) _ = (Outcome.initializationTimeout, mC)
    rw [pollList_cons, hobs, hstep]
  · intro k hk
    have hrepl : (List.range k).map σ
        = List.replicate k Observation.indeterminate :=
      range_map_replicate σ k (fun i hi' => hσ i (by omega))
    rw [hrepl]
    have := pollSegment_replicate_indet mC k initState rfl
      (by simp only [initState]; omega)
    simpa [initState] using this

/-- C2 witness: Scenario A — interval 1, timeout 3 gives a threshold of
3, and three indeterminate observations in a budget of 5 produce
`initialization_timeout` at attempt 3. -/
theorem c2_witness :
    (0 : Nat) < 1
    ∧ maxConsecutiveNullResponses 3 1 ≤ 5
    ∧ pollUntilScanComplete (fun _ => Observation.indeterminate) 5 1 3
        = (Outcome.initializationTimeout, maxConsecutiveNullResponses 3 1) :=
  ⟨by decide, by decide,
    (c2_initialization_timeout_exact (fun _ => Observation.indeterminate) 5 1 3
      (by decide) (by decide) (by decide) (by decide)).1⟩

/-- C3: after fully processing any observation sequence (no terminal
outcome fired inside it), the consecutive-indeterminate counter equals
the length of the maximal all-indeterminate suffix of the sequence; in
particular it is 0 right after any non-indeterminate observation, and
`attempts` equals the number of observations processed. -/
theorem c3_consecutive_indeterminate_invariant
    (mC : Nat) (l : List Observation) (st' : PollState)
    (h : pollSegment mC l initState = Sum.inl st') :
    st'.consecutiveNullResponses = indetSuffixLen l
    ∧ st'.attempts = l.length
    ∧ (∀ o, l.getLast? = some o → o ≠ Observation.indeterminate →
        st'.consecutiveNullResponses = 0) := by
  have hc := pollSegment_consec mC l initState st' h
  have ha := pollSegment_attempts mC l initState st' h
  have hcc : st'.consecutiveNullResponses = indetSuffixLen l := by
    by_cases hfull : indetSuffixLen l = l.length
    · rw [if_pos hfull] at hc
      simp only [initState] at hc
      omega
    · rwa [if_neg hfull] at hc
  refine ⟨hcc, by simpa [initState] using ha, ?_⟩
  intro o hlast hne
  rw [hcc, indetSuffixLen_of_last_ne l o hlast hne]

/-- C3 witness: processing `[indeterminate, indeterminate]` with
threshold 5 leaves counter 2 (the suffix length) and attempts 2. -/
theorem c3_witness :
    pollSegment 5 [Observation.indeterminate, Observation.indeterminate]
      initState = Sum.inl
        { attempts := 2, consecutiveNullResponses := 2, scanStarted := false }
    ∧ (({ attempts := 2, consecutiveNullResponses := 2, scanStarted := false }
        : PollState)).consecutiveNullResponses
      = indetSuffixLen [Observation.indeterminate, Observation.indeterminate]
    ∧ (({ attempts := 2, consecutiveNullResponses := 2, scanStarted := false }
        : PollState)).attempts
      = ([Observation.indeterminate, Observation.indeterminate]
          : List Observation).length :=
  ⟨by decide,
    (c3_consecutive_indeterminate_invariant 5 _ _ (by decide)).1,
    (c3_consecutive_indeterminate_invariant 5
      [Observation.indeterminate, Observation.indeterminate]
      { attempts := 2, consecutiveNullResponses := 2, scanStarted := false }
      (by decide)).2.1⟩

/-- C4: in every session and after every prior history that has not yet
terminated, a `finished` observation terminates the machine immediately
with outcome `completed`, whatever `scanStarted` and the
consecutive-indeterminate counter hold in `st'`. -/
theorem c4_finished_completes_immediately
    (σ : Nat → Observation)
    (maxAttempts intervalMs initializationTimeoutMs j : Nat) (st' : PollState)
    (hj : j < maxAttempts)
    (hlive : pollSegment (maxConsecutiveNullResponses initializationTimeoutMs intervalMs)
      ((List.range j).map σ) initState = Sum.inl st')
    (hobs : σ j = Observation.finished) :
    pollUntilScanComplete σ maxAttempts intervalMs initializationTimeoutMs
      = (Outcome.completed, j + 1) := by
  set mC := maxConsecutiveNullResponses initializationTimeoutMs intervalMs with hmC
  obtain ⟨rest, hsplit⟩ := range_map_split σ maxAttempts j hj
  have hatt : st'.attempts = j := by
    have := pollSegment_attempts mC _ _ _ hlive
    simpa [initState] using this
  have hstep : pollStep mC st' (σ j) = Sum.inr (Outcome.completed, j + 1) := by
    rw [hobs]
    simp [pollStep, hatt]
  unfold pollUntilScanComplete
  rw [← hmC, hsplit, pollList_append, hlive]
  show pollList mC (σ j :: rest) st' = (Outcome.completed, j + 1)
  rw [pollList_cons, hstep]

/-- C4 witness: Scenario B — `[running, finished]` completes after 2
attempts. -/
theorem c4_witness :
    (1 : Nat) < 5
    ∧ (fun i => if i = 0 then Observation.running else Observation.finished) 1
        = Observation.finished
    ∧ pollUntilScanComplete
        (fun i => if i = 0 then Observation.running else Observation.finished)
        5 1 3 = (Outcome.completed, 2) :=
  ⟨by decide, by decide,
    c4_finished_completes_immediately
      (fun i => if i = 0 then Observation.running else Observation.finished)
      5 1 3 1
      { attempts := 1, consecutiveNullResponses := 0, scanStarted := true }
      (by decide) (by decide) (by decide)⟩

/-- C5: if none of the outcomes `completed`, `cancelled` or
`initializationTimeout` fires within the first `maxAttempts`
observations (i.e. that whole segment is processed without returning),
the session terminates with `maxAttemptsReached` and the final attempt
count equals `maxAttempts`. -/
theorem c5_budget_exhaustion
    (σ : Nat → Observation) (maxAttempts intervalMs initializationTimeoutMs : Nat)
    (st' : PollState)
    (h : pollSegment (maxConsecutiveNullResponses initializationTimeoutMs intervalMs)
      ((List.range maxAttempts).map σ) initState = Sum.inl st') :
    pollUntilScanComplete σ maxAttempts intervalMs initializationTimeoutMs
      = (Outcome.maxAttemptsReached, maxAttempts) := by
  set mC := maxConsecutiveNullResponses initializationTimeoutMs intervalMs with hmC
  have hatt : st'.attempts = maxAttempts := by
    have := pollSegment_attempts mC _ _ _ h
    simpa [initState] using this
  have happ := pollList_append mC ((List.range maxAttempts).map σ) [] initState
  rw [List.append_nil] at happ
  unfold pollUntilScanComplete
  rw [← hmC, happ, h]
  show pollList mC [] st' = (Outcome.maxAttemptsReached, maxAttempts)
  rw [← hatt]
  rfl

/-- C5 witness: Scenario D — a scan that keeps running with a budget of
2 ends with `max_attempts_reached` and 2 attempts. -/
theorem c5_witness :
    pollSegment (maxConsecutiveNullResponses 3 1)
      ((List.range 2).map fun _ => Observation.running) initState
      = Sum.inl { attempts := 2, consecutiveNullResponses := 0, scanStarted := true }
    ∧ pollUntilScanComplete (fun _ => Observation.running) 2 1 3
        = (Outcome.maxAttemptsReached, 2) :=
  ⟨by decide,
    c5_budget_exhaustion (fun _ => Observation.running) 2 1 3
      { attempts := 2, consecutiveNullResponses := 0, scanStarted := true }
      (by decide)⟩

/-- C6: for every behaviour of the remote collaborator other than an
affirmative boolean answer (HTTP error status, transport failure,
unparsable body, body without a `data` member, absent record, or null
status field), a single status probe returns
`isStillScanning = null`, i.e. the `indeterminate` observation; the
probe itself is a total function of the behaviour (it never propagates
an exception, by construction of the `catch` branch). -/
theorem c6_probe_failure_folds_to_indeterminate
    (rb : RemoteBehaviour) (h : ∀ b : Bool, rb ≠ RemoteBehaviour.ok b) :
    (checkScanningStatus rb).isStillScanning = none
    ∧ classify (checkScanningStatus rb).isStillScanning
        = Observation.indeterminate := by
  cases rb
  case ok b => exact absurd rfl (h b)
  all_goals exact ⟨rfl, rfl⟩

/-- C6 witness: a transport failure is not an affirmative answer and
yields the indeterminate observation. -/
theorem c6_witness :
    (∀ b : Bool,
      RemoteBehaviour.transportFailure "connection reset" ≠ RemoteBehaviour.ok b)
    ∧ (checkScanningStatus
        (RemoteBehaviour.transportFailure "connection reset")).isStillScanning = none
    ∧ classify (checkScanningStatus
        (RemoteBehaviour.transportFailure "connection reset")).isStillScanning
        = Observation.indeterminate :=
  ⟨(fun _ h => nomatch h),
    (c6_probe_failure_folds_to_indeterminate
      (RemoteBehaviour.transportFailure "connection reset")
      (fun _ h => nomatch h)).1,
    (c6_probe_failure_folds_to_indeterminate
      (RemoteBehaviour.transportFailure "connection reset")
      (fun _ h => nomatch h)).2⟩

/-- C7 counterexample: `missingField` is a remote behaviour under which
the gate fails to determine whether any job is active (it is not an
affirmative boolean answer), yet `checkScanInProgress` returns
`undefined` (`none`), not `true`, and the caller proceeds to start a new
job instead of refusing. -/
theorem c7_counterexample :
    (∀ b : Bool, GateBehaviour.missingField ≠ GateBehaviour.ok b)
    ∧ checkScanInProgress GateBehaviour.missingField ≠ some true
    ∧ mainStartsNewScan GateBehaviour.missingField = true :=
  ⟨(fun _ h => nomatch h), by decide, rfl⟩

/-- C7 (amended): whenever the gate's query throws — transport failure,
HTTP error status, or unparsable body — the gate returns `true`
(fail-safe) and the caller refuses to start a new job; but an HTTP-ok,
well-formed response that merely lacks the expected field yields
`undefined` instead, and the caller proceeds (see the C7 counterexample). -/
theorem c7_gate_error_failsafe (gb : GateBehaviour) (e : String)
    (h : checkScanInProgressTry gb = Except.error e) :
    checkScanInProgress gb = some true ∧ mainStartsNewScan gb = false := by
  have h1 : checkScanInProgress gb = some true := by
    unfold checkScanInProgress
    rw [h]
  refine ⟨h1, ?_⟩
  unfold mainStartsNewScan
  rw [h1]
  rfl

/-- C7 witness: a transport failure makes the gate report `true` and the
caller refuse to start. -/
theorem c7_witness :
    checkScanInProgressTry (GateBehaviour.transportFailure "connection reset")
      = Except.error "connection reset"
    ∧ checkScanInProgress (GateBehaviour.transportFailure "connection reset")
        = some true
    ∧ mainStartsNewScan (GateBehaviour.transportFailure "connection reset")
        = false :=
  ⟨rfl, c7_gate_error_failsafe
    (GateBehaviour.transportFailure "connection reset") "connection reset" rfl⟩

/-- C8: per session the machine produces exactly one outcome (it is a
function into `Outcome × Nat`); the number of probes issued equals the
final attempt count and stays within the budget; and the session never
issues a probe beyond the one that produced the terminal result — the
result is unchanged under any replacement of the observations after the
final attempt. -/
theorem c8_session_probe_discipline
    (σ σ' : Nat → Observation) (maxAttempts intervalMs initializationTimeoutMs : Nat)
    (h : ∀ i, i < (pollUntilScanComplete σ maxAttempts intervalMs
        initializationTimeoutMs).2 → σ' i = σ i) :
    probesIssued σ maxAttempts intervalMs initializationTimeoutMs
      = (pollUntilScanComplete σ maxAttempts intervalMs initializationTimeoutMs).2
    ∧ (pollUntilScanComplete σ maxAttempts intervalMs initializationTimeoutMs).2
        ≤ maxAttempts
    ∧ pollUntilScanComplete σ' maxAttempts intervalMs initializationTimeoutMs
        = pollUntilScanComplete σ maxAttempts intervalMs initializationTimeoutMs := by
  set mC := maxConsecutiveNullResponses initializationTimeoutMs intervalMs with hmC
  refine ⟨?_, ?_, ?_⟩
  · have := pollListProbes_attempts mC ((List.range maxAttempts).map σ) initState
    simpa [probesIssued, pollUntilScanComplete, ← hmC, initState] using this
  · have := pollList_attempts_le mC ((List.range maxAttempts).map σ) initState
    simpa [pollUntilScanComplete, ← hmC, initState] using this
  · unfold pollUntilScanComplete
    rw [← hmC]
    apply pollList_take_eq
    · simp
    · apply List.ext_getElem
      · simp
      · intro i h1 h2
        simp only [List.getElem_take, List.getElem_map, List.getElem_range]
        apply h
        simp only [List.length_take, List.length_map, List.length_range] at h1
        have hge := pollList_attempts_ge mC ((List.range maxAttempts).map σ) initState
        simp only [pollUntilScanComplete, ← hmC]
        simp only [initState] at hge
        omega

/-- C8 witness: a session that completes at attempt 2 issued exactly 2
probes, and changing every observation from index 2 on does not change
the result. -/
theorem c8_witness :
    probesIssued (fun i => if i = 0 then Observation.running else Observation.finished)
      5 1 3
      = (pollUntilScanComplete
          (fun i => if i = 0 then Observation.running else Observation.finished)
          5 1 3).2
    ∧ (pollUntilScanComplete
        (fun i => if i = 0 then Observation.running else Observation.finished)
        5 1 3).2 ≤ 5
    ∧ pollUntilScanComplete
        (fun i => if i = 0 then Observation.running
          else if i = 1 then Observation.finished else Observation.indeterminate)
        5 1 3
      = pollUntilScanComplete
          (fun i => if i = 0 then Observation.running else Observation.finished)
          5 1 3 :=
  c8_session_probe_discipline
    (fun i => if i = 0 then Observation.running else Observation.finished)
    (fun i => if i = 0 then Observation.running
      else if i = 1 then Observation.finished else Observation.indeterminate)
    5 1 3 (by decide)

/-- C9: the outcome `cancelled` is never produced on the first
observation of a session: a session that ends cancelled has a final
attempt count of at least 2, because `scanStarted` starts out false and
is set only by a strictly earlier `running` observation. -/
theorem c9_cancelled_needs_prior_running
    (σ : Nat → Observation) (maxAttempts intervalMs initializationTimeoutMs : Nat)
    (h : (pollUntilScanComplete σ maxAttempts intervalMs
        initializationTimeoutMs).1 = Outcome.cancelled) :
    2 ≤ (pollUntilScanComplete σ maxAttempts intervalMs
        initializationTimeoutMs).2 := by
  have hp : pollUntilScanComplete σ maxAttempts intervalMs initializationTimeoutMs
      = (Outcome.cancelled,
         (pollUntilScanComplete σ maxAttempts intervalMs
           initializationTimeoutMs).2) := by
    rw [← h]
  have hl := pollList_cancelled
    (maxConsecutiveNullResponses initializationTimeoutMs intervalMs)
    ((List.range maxAttempts).map σ) initState
    (pollUntilScanComplete σ maxAttempts intervalMs initializationTimeoutMs).2 hp
  rcases hl with hs | hb
  · simp [initState] at hs
  · simpa [initState] using hb

/-- C9 witness: a cancelled session (running, then indeterminate) ends
with attempt count 2 ≥ 2. -/
theorem c9_witness :
    (pollUntilScanComplete
      (fun i => if i = 0 then Observation.running else Observation.indeterminate)
      5 1 3).1 = Outcome.cancelled
    ∧ 2 ≤ (pollUntilScanComplete
        (fun i => if i = 0 then Observation.running else Observation.indeterminate)
        5 1 3).2 :=
  ⟨by decide,
    c9_cancelled_needs_prior_running
      (fun i => if i = 0 then Observation.running else Observation.indeterminate)
      5 1 3 (by decide)⟩

/-- C10: on an HTTP-ok, well-formed body lacking the
`checkScanInProgress` (or `isInProgress`) field, the gate's try-block
returns `undefined` without throwing — so the fail-safe catch branch
does not apply — the gate returns `undefined` (`none`), the caller
treats `undefined` exactly like `false` (both are falsy), and it
proceeds to start a new job. -/
theorem c10_gate_missing_field_undefined :
    checkScanInProgressTry GateBehaviour.missingField = Except.ok none
    ∧ checkScanInProgress GateBehaviour.missingField = none
    ∧ truthy none = truthy (some false)
    ∧ mainStartsNewScan GateBehaviour.missingField = true
    ∧ mainStartsNewScan (GateBehaviour.ok false) = true :=
  ⟨rfl, rfl, rfl, rfl, rfl⟩

end Scan
